import Mathlib

/-!
Verification of the mutable-registry / SkyDB core of the skynet-js client.

Definitions are shallow embeddings of the functions in `src/dist/cjs/skydb.js`,
`src/dist/cjs/registry.js` and the MySky module (`src/unnamed/part_005`).
Bytes (JS `Uint8Array`) are modelled as `List Nat`; JS `bigint` revision
counters as `Nat`; fallible code returns `Except`.

Helper modules absent from the provided sources (`utils/number`, `skylink/sia`,
`crypto`, encoding helpers) are modelled from the spec where a definition is
needed; each such definition carries a doc comment starting with
`Modelled from the spec:`.
-/

namespace Skynet

/-- JS `Uint8Array` contents, one `Nat` per byte. -/
abbrev Bytes := List Nat

/-- Modelled from the spec: `MAX_REVISION` from `utils/number` (absent from
src/); the spec fixes the revision ceiling at `2^64 - 1`. -/
def MAX_REVISION : Nat := 2 ^ 64 - 1

/-- Modelled from the spec: `RAW_SKYLINK_SIZE` from `skylink/sia` (absent from
src/); the spec fixes the raw binary skylink at 34 bytes. -/
def RAW_SKYLINK_SIZE : Nat := 34

/-- Modelled from the spec: `BASE64_ENCODED_SKYLINK_SIZE` from `skylink/sia`
(absent from src/); the spec fixes the bare base64-url skylink string at 46
characters. -/
def BASE64_ENCODED_SKYLINK_SIZE : Nat := 46

/-- Modelled from the spec: `EMPTY_SKYLINK` from `skylink/sia` (absent from
src/); the all-zero deletion sentinel of the raw skylink length. -/
def EMPTY_SKYLINK : Bytes := List.replicate RAW_SKYLINK_SIZE 0

/-- `MAX_ENTRY_LENGTH` from the MySky module (`src/unnamed/part_005`, line 41). -/
def MAX_ENTRY_LENGTH : Nat := 70

/-- `RegistryEntry` (see `src/dist/cjs/registry.js` and the data model in the
spec): a data key, a byte payload and an unsigned 64-bit revision counter. -/
structure RegistryEntry where
  dataKey : String
  data : Bytes
  revision : Nat
  deriving Repr, DecidableEq

/-- `SignedRegistryEntry`: entry and signature, both absent for a 404 lookup
(`{entry: null, signature: null}` in the source). -/
structure SignedRegistryEntry where
  entry : Option RegistryEntry
  signature : Option Bytes
  deriving Repr, DecidableEq

/-- `getNextRevisionFromEntry` from `src/dist/cjs/skydb.js` lines 360-374:
`null` gives revision 0, otherwise `entry.revision + 1`; throws when the result
exceeds `MAX_REVISION`. -/
def getNextRevisionFromEntry (entry : Option RegistryEntry) : Except String Nat :=
  let revision : Nat :=
    match entry with
    | none => 0
    | some entry => entry.revision + 1
  if revision > MAX_REVISION then
    Except.error "Current entry already has maximum allowed revision, could not update the entry"
  else
    Except.ok revision

/-- Modelled from the spec: one hex digit of the hex codec from `utils/string`
(absent from src/). -/
def hexDigitVal (c : Char) : Option Nat :=
  if '0' ≤ c ∧ c ≤ '9' then some (c.toNat - '0'.toNat)
  else if 'a' ≤ c ∧ c ≤ 'f' then some (c.toNat - 'a'.toNat + 10)
  else if 'A' ≤ c ∧ c ≤ 'F' then some (c.toNat - 'A'.toNat + 10)
  else none

/-- Modelled from the spec: hex decoding of pairs of digits; `none` on odd
length or a non-hex digit (where the source throws a validation error). -/
def hexPairs : List Char → Option Bytes
  | [] => some []
  | [_] => none
  | c1 :: c2 :: rest => do
    let hi ← hexDigitVal c1
    let lo ← hexDigitVal c2
    let tail ← hexPairs rest
    pure ((16 * hi + lo) :: tail)

/-- Modelled from the spec: `hexToUint8Array` from `utils/string` (absent from
src/). -/
def hexToUint8Array (s : String) : Option Bytes := hexPairs s.toList

/-- Modelled from the spec: `stringToUint8ArrayUtf8` (absent from src/),
restricted to the code points of the string (exact for the ASCII data keys and
skylinks the library produces). -/
def stringToUint8ArrayUtf8 (s : String) : Bytes := s.toList.map Char.toNat

/-- One absorption pass of the stand-in digest: add each input byte into the
accumulator slot `i % width`, mod 256. -/
def absorb (width : Nat) (acc : Bytes) (i : Nat) : Bytes → Bytes
  | [] => acc
  | b :: rest => absorb width (acc.set (i % width) ((acc.getD (i % width) 0 + b) % 256)) (i + 1) rest

/-- Modelled from the spec: a fixed-width cryptographic digest (stand-in
compression; the real library uses blake2b). Width is the output length in
bytes. -/
def digest (width : Nat) (l : Bytes) : Bytes := absorb width (List.replicate width 0) 0 l

/-- 8-byte little-endian encoding of a 64-bit value (`encodeBigintAsUint64`
from `utils/encoding`, absent from src/; the spec requires revision to be
hashed as a fixed 8-byte little-endian word). -/
def u64le (n : Nat) : Bytes := (List.range 8).map fun i => n / 256 ^ i % 256

/-- Modelled from the spec: `hashDataKey` from `crypto` (absent from src/):
canonical 32-byte digest of the UTF-8 bytes of the key. -/
def hashDataKey (s : String) : Bytes := digest 32 (stringToUint8ArrayUtf8 s)

/-- Modelled from the spec: the canonical, order-preserving encoding hashed by
`hashRegistryEntry` — length-prefixed data key bytes, length-prefixed data
bytes, then the revision as a fixed 8-byte little-endian word. The data key is
hashed first unless the caller asserts it is already hashed hex. -/
def registryEntryPreimage (e : RegistryEntry) (hashedDataKeyHex : Bool) : Bytes :=
  let dk := if hashedDataKeyHex then (hexToUint8Array e.dataKey).getD [] else hashDataKey e.dataKey
  u64le dk.length ++ dk ++ u64le e.data.length ++ e.data ++ u64le e.revision

/-- Modelled from the spec: `hashRegistryEntry` from `crypto` (absent from
src/): 32-byte digest of the canonical entry encoding. -/
def hashRegistryEntry (e : RegistryEntry) (hashedDataKeyHex : Bool) : Bytes :=
  digest 32 (registryEntryPreimage e hashedDataKeyHex)

/-- tweetnacl key layout: a 64-byte secret key is seed (32 bytes) followed by
the public key (32 bytes); `sign.keyPair.fromSecretKey` reads the public key
from the tail. -/
def publicKeyFromSecretKey (sk : Bytes) : Bytes := sk.drop 32

/-- Modelled from the spec: tweetnacl `sign.detached` — a 64-byte deterministic
detached Ed25519 signature over the message (stand-in construction with the
documented output length). -/
def naclSignDetached (sk : Bytes) (msg : Bytes) : Bytes := digest 64 (sk ++ msg)

/-- tweetnacl `sign` (the ATTACHED signing function): returns the signed
message, i.e. the 64-byte detached signature followed by a copy of the
message. This is what `registry.js` line 239 calls. -/
def naclSign (sk : Bytes) (msg : Bytes) : Bytes := naclSignDetached sk msg ++ msg

/-- tweetnacl `sign.detached.verify`: throws `bad signature size` unless the
signature is exactly 64 bytes and `bad public key size` unless the key is 32
bytes, then runs the Ed25519 verification equation (kept abstract as the
`verifyCore` parameter). -/
def naclSignDetachedVerify (verifyCore : Bytes → Bytes → Bytes → Bool)
    (msg sig pub : Bytes) : Except String Bool :=
  if sig.length ≠ 64 then Except.error "bad signature size"
  else if pub.length ≠ 32 then Except.error "bad public key size"
  else Except.ok (verifyCore msg sig pub)

/-- `signEntry` from `src/dist/cjs/registry.js` lines 234-241: hex-decode the
private key and call tweetnacl `sign` (NOT `sign.detached`) on the canonical
entry hash. -/
def signEntry (privateKey : String) (entry : RegistryEntry) (hashedDataKeyHex : Bool) :
    Except String Bytes :=
  match hexToUint8Array privateKey with
  | none => Except.error "Expected parameter privateKey to be a hex-encoded string"
  | some sk => Except.ok (naclSign sk (hashRegistryEntry entry hashedDataKeyHex))

/-- The parsed body of a successful (2xx) registry GET response after the
sanity check of `getEntry` (all three fields validated as strings). -/
structure GetEntryResponseData where
  data : String
  revision : String
  signature : String
  deriving Repr, DecidableEq

/-- JS `BigInt(string)` on the revision field: decimal digits give the value
(the empty string gives 0, as in JS); anything else throws. -/
def jsBigIntOfString (s : String) : Option Nat :=
  if s.toList.all (fun c => '0' ≤ c ∧ c ≤ '9') then
    some (s.toList.foldl (fun a c => 10 * a + (c.toNat - '0'.toNat)) 0)
  else none

/-- The transport-level failure surfaced by `getEntry`. -/
structure AxiosResponseInfo where
  status : Option Nat
  deriving Repr, DecidableEq

/-- An Axios error as inspected by `handleGetEntryErrResponse`: it may or may
not carry a response, whose status may be absent. -/
structure AxiosError where
  response : Option AxiosResponseInfo
  deriving Repr, DecidableEq

/-- How `getEntry` fails: a freshly constructed error for malformed state
(`incomplete`), the untouched original transport error (`original`), or an
exception thrown inside the success path (`thrown`). -/
inductive GetEntryError where
  | incomplete (msg : String)
  | original (err : AxiosError)
  | thrown (msg : String)
  deriving Repr, DecidableEq

/-- `handleGetEntryErrResponse` from `src/dist/cjs/registry.js` lines 304-318:
no `response` field or a falsy `status` raises a fresh error; a 404 status is
translated to the absent signed entry; any other status rethrows the original
error unchanged. -/
def handleGetEntryErrResponse (err : AxiosError) : Except GetEntryError SignedRegistryEntry :=
  match err.response with
  | none => Except.error (GetEntryError.incomplete
      "Error response field not found, incomplete Axios error.")
  | some resp =>
    match resp.status with
    | none => Except.error (GetEntryError.incomplete
        "Error response did not contain expected field 'status'.")
    | some status =>
      if status = 0 then
        -- a zero status is falsy in JS and takes the same branch as `undefined`
        Except.error (GetEntryError.incomplete
          "Error response did not contain expected field 'status'.")
      else if status = 404 then
        Except.ok ⟨none, none⟩
      else
        Except.error (GetEntryError.original err)

/-- The success path of `getEntry` (`src/dist/cjs/registry.js` lines 81-112):
parse `revision` from its string form, hex-decode `signature` and `data`
(empty `data` string gives empty bytes), build the signed entry, then verify
the signature against the entry hash and the given public key; return the
signed entry only when verification succeeds, otherwise throw. -/
def getEntrySuccess (verifyCore : Bytes → Bytes → Bytes → Bool)
    (publicKey dataKey : String) (hashedDataKeyHex : Bool)
    (resp : GetEntryResponseData) : Except GetEntryError SignedRegistryEntry :=
  match jsBigIntOfString resp.revision with
  | none => Except.error (GetEntryError.thrown "Cannot convert revision to a BigInt")
  | some revision =>
    match hexToUint8Array resp.signature with
    | none => Except.error (GetEntryError.thrown
        "Expected entry response field signature to be a hex-encoded string")
    | some signature =>
      match (if resp.data = "" then some ([] : Bytes) else hexToUint8Array resp.data) with
      | none => Except.error (GetEntryError.thrown
          "Expected entry response field data to be a hex-encoded string")
      | some data =>
        let entry : RegistryEntry := ⟨dataKey, data, revision⟩
        match hexToUint8Array publicKey with
        | none => Except.error (GetEntryError.thrown
            "Expected parameter publicKey to be a hex-encoded string")
        | some pub =>
          match naclSignDetachedVerify verifyCore
              (hashRegistryEntry entry hashedDataKeyHex) signature pub with
          | Except.error msg => Except.error (GetEntryError.thrown msg)
          | Except.ok true => Except.ok ⟨some entry, some signature⟩
          | Except.ok false => Except.error (GetEntryError.thrown
              "could not verify signature from retrieved, signed registry entry -- possible corrupted entry")

/-- `getEntry` from `src/dist/cjs/registry.js` lines 44-113, as a function of
the HTTP outcome: a transport error is routed through
`handleGetEntryErrResponse`; a 2xx response through the verified parse. -/
def getEntry (verifyCore : Bytes → Bytes → Bytes → Bool)
    (publicKey dataKey : String) (hashedDataKeyHex : Bool)
    (response : Except AxiosError GetEntryResponseData) :
    Except GetEntryError SignedRegistryEntry :=
  match response with
  | Except.error err => handleGetEntryErrResponse err
  | Except.ok resp => getEntrySuccess verifyCore publicKey dataKey hashedDataKeyHex resp

/-- The base64-url alphabet (RFC 4648 `A-Za-z0-9-_`), used by the skylink
codec. -/
def BASE64_URL_ALPHABET : List Char :=
  "ABCDEFGHIJKLMNOPQRSTUVWXYZabcdefghijklmnopqrstuvwxyz0123456789-_".toList

/-- One base64-url digit. -/
def base64UrlChar (n : Nat) : Char := BASE64_URL_ALPHABET.getD n 'A'

/-- Modelled from the spec: unpadded base64-url encoding (`encodeSkylinkBase64`
from `utils/encoding`, absent from src/): 3-byte groups become 4 digits, a
trailing byte 2 digits, two trailing bytes 3 digits. -/
def base64UrlGroups : Bytes → List Char
  | [] => []
  | [b1] => [base64UrlChar (b1 / 4), base64UrlChar (b1 % 4 * 16)]
  | [b1, b2] =>
      [base64UrlChar (b1 / 4), base64UrlChar (b1 % 4 * 16 + b2 / 16),
       base64UrlChar (b2 % 16 * 4)]
  | b1 :: b2 :: b3 :: rest =>
      base64UrlChar (b1 / 4) :: base64UrlChar (b1 % 4 * 16 + b2 / 16) ::
      base64UrlChar (b2 % 16 * 4 + b3 / 64) :: base64UrlChar (b3 % 64) ::
      base64UrlGroups rest

/-- Modelled from the spec: `encodeSkylinkBase64` — the unpadded base64-url
string of the raw skylink bytes. -/
def encodeSkylinkBase64 (data : Bytes) : String := String.mk (base64UrlGroups data)

/-- Modelled from the spec: `uint8ArrayToStringUtf8` (absent from src/),
restricted to one code point per byte (exact for the ASCII skylink strings
stored by legacy entries). -/
def uint8ArrayToStringUtf8 (bs : Bytes) : String := String.mk (bs.map Char.ofNat)

/-- `URI_SKYNET_PREFIX` from `utils/url`: the canonical skylink URI scheme. -/
def URI_SKYNET_PREFIX : String := "sia://"

/-- `listStartsWith pat l` holds when `pat` is a prefix of `l`. -/
def listStartsWith : List Char → List Char → Bool
  | [], _ => true
  | _ :: _, [] => false
  | p :: ps, c :: cs => p == c && listStartsWith ps cs

/-- Modelled from the spec: `formatSkylink` (skylink/format, absent from src/)
always emits the canonical `sia://`-prefixed human string; modelled as
unconditional prefixing (every call site passes a bare skylink). -/
def formatSkylink (s : String) : String := URI_SKYNET_PREFIX ++ s

/-- Modelled from the spec: `parseSkylink` (skylink/parse, absent from src/):
extract the bare skylink from a bare 46-character string or a `sia://` URI;
`null` when absent. -/
def parseSkylink (s : String) : Option String :=
  let t : List Char :=
    if listStartsWith URI_SKYNET_PREFIX.toList s.toList then
      s.toList.drop URI_SKYNET_PREFIX.toList.length
    else s.toList
  if t.length = BASE64_ENCODED_SKYLINK_SIZE then some (String.mk t) else none

/-- `validateSkylinkString` from `utils/validation` (absent from src/): parse
the given string as a skylink, throwing a validation error when it is not
one. -/
def validateSkylinkString (s : String) : Except String String :=
  match parseSkylink s with
  | some v => Except.ok v
  | none => Except.error
      "Expected optional parameter cachedDataLink to be valid skylink of type string"

/-- `checkCachedDataLink` from `src/dist/cjs/skydb.js` lines 383-389: a
supplied (truthy) cached data link is validated and compared against the raw
resolved data link; an absent (or empty, hence falsy) one never matches. -/
def checkCachedDataLink (rawDataLink : String) (cachedDataLink : Option String) :
    Except String Bool :=
  match cachedDataLink with
  | some c =>
      if c ≠ "" then
        match validateSkylinkString c with
        | Except.error e => Except.error e
        | Except.ok v => Except.ok (rawDataLink == v)
      else Except.ok false
  | none => Except.ok false

/-- Modelled from the spec: `areEqualUint8Arrays` from `utils/array` (absent
from src/) — elementwise equality of byte arrays. -/
def areEqualUint8Arrays (a b : Bytes) : Bool := a == b

/-- `getSkyDBRegistryEntry` from `src/dist/cjs/skydb.js` lines 400-407: the
looked-up entry, or `null` when the entry is absent or its data equals the
all-zero deletion sentinel. -/
def getSkyDBRegistryEntry (signedEntry : SignedRegistryEntry) : Option RegistryEntry :=
  match signedEntry.entry with
  | none => none
  | some entry =>
      if areEqualUint8Arrays entry.data EMPTY_SKYLINK then none else some entry

/-- `parseDataLink` from `src/dist/cjs/skydb.js` lines 416-430: legacy entries
store the 46-character base64 skylink string as bytes; current entries store
the 34 raw bytes, re-encoded to base64; anything else is a validation
error. -/
def parseDataLink (data : Bytes) (legacy : Bool) : Except String (String × String) :=
  if legacy ∧ data.length = BASE64_ENCODED_SKYLINK_SIZE then
    let rawDataLink := uint8ArrayToStringUtf8 data
    Except.ok (rawDataLink, formatSkylink rawDataLink)
  else if data.length = RAW_SKYLINK_SIZE then
    let rawDataLink := encodeSkylinkBase64 data
    Except.ok (rawDataLink, formatSkylink rawDataLink)
  else
    Except.error "Expected returned entry data to be a skylink byte array"

/-- A JSON value as produced by the download layer (`JSON.parse`). -/
inductive JsValue where
  | null
  | bool (b : Bool)
  | num (n : Int)
  | str (s : String)
  | arr (elems : List JsValue)
  | obj (fields : List (String × JsValue))

/-- JS property read `v[key]` as used on parsed JSON: a field of an object,
`undefined` (`none`) otherwise. -/
def jsLookup (v : JsValue) (key : String) : Option JsValue :=
  match v with
  | JsValue.obj fields => List.lookup key fields
  | _ => none

/-- JS truthiness of a possibly-`undefined` value. -/
def jsTruthy : Option JsValue → Bool
  | none => false
  | some JsValue.null => false
  | some (JsValue.bool b) => b
  | some (JsValue.num n) => n != 0
  | some (JsValue.str s) => s != ""
  | some (JsValue.arr _) => true
  | some (JsValue.obj _) => true

/-- JS `typeof v === "object"` (true for objects, arrays and `null`). -/
def jsTypeofObject : JsValue → Bool
  | JsValue.null => true
  | JsValue.arr _ => true
  | JsValue.obj _ => true
  | _ => false

/-- The post-download step of `getJSON` (`src/dist/cjs/skydb.js` lines 74-85):
a primitive payload (or `null`) is an error; when `data["_data"] && data["_v"]`
is falsy the parsed value is returned as-is (legacy); otherwise `_data` is
unwrapped, erroring when it is not object-typed. -/
def processDownloadedData (dataKey : String) (data : JsValue) : Except String JsValue :=
  match data with
  | JsValue.null | JsValue.bool _ | JsValue.num _ | JsValue.str _ =>
      Except.error ("File data for the entry at data key '" ++ dataKey ++ "' is not JSON.")
  | _ =>
    if jsTruthy (jsLookup data "_data") && jsTruthy (jsLookup data "_v") then
      match jsLookup data "_data" with
      | some actualData =>
          if jsTypeofObject actualData then Except.ok actualData
          else Except.error
            ("File data '_data' for the entry at data key '" ++ dataKey ++ "' is not JSON.")
      | none => Except.ok data
    else Except.ok data

/-- The network effects a SkyDB or MySky call can perform. -/
inductive IOEvent where
  | upload
  | getEntryReq
  | registryPost
  | download
  | userID
  | remoteSign
  deriving Repr, DecidableEq

/-- `getJSON` from `src/dist/cjs/skydb.js` lines 51-86, as a function of the
looked-up signed entry and a download oracle; the second component records
whether the blob download was performed. -/
def getJSON (signedEntry : SignedRegistryEntry) (cachedDataLink : Option String)
    (download : String → JsValue) (dataKey : String) :
    Except String (Option JsValue × Option String) × Bool :=
  match getSkyDBRegistryEntry signedEntry with
  | none => (Except.ok (none, none), false)
  | some entry =>
    match parseDataLink entry.data true with
    | Except.error e => (Except.error e, false)
    | Except.ok (rawDataLink, dataLink) =>
      match checkCachedDataLink rawDataLink cachedDataLink with
      | Except.error e => (Except.error e, false)
      | Except.ok true => (Except.ok (none, some dataLink), false)
      | Except.ok false =>
        let data := download dataLink
        match processDownloadedData dataKey data with
        | Except.error e => (Except.error e, true)
        | Except.ok actualData => (Except.ok (some actualData, some dataLink), true)

/-- `getNextRegistryEntry` from `src/dist/cjs/skydb.js` lines 281-299: build
the next entry for the given data from the looked-up signed entry. -/
def getNextRegistryEntry (signedEntry : SignedRegistryEntry) (dataKey : String)
    (data : Bytes) : Except String RegistryEntry :=
  match getNextRevisionFromEntry signedEntry.entry with
  | Except.error e => Except.error e
  | Except.ok revision => Except.ok ⟨dataKey, data, revision⟩

/-- The registry server's view of one (publicKey, dataKey) slot: `getEntry`
observes an absent signed entry for a never-written slot and the stored entry
with its stored signature otherwise. -/
def observeSlot (slot : Option (RegistryEntry × Bytes)) : SignedRegistryEntry :=
  match slot with
  | none => ⟨none, none⟩
  | some (e, sig) => ⟨some e, some sig⟩

/-- The completion state of the three I/O tasks inside one `setJSON` write. -/
structure WriteState where
  uploadDone : Bool
  getEntryDone : Bool
  postDone : Bool
  deriving Repr, DecidableEq

/-- The control flow of one `setJSON` write (`src/dist/cjs/skydb.js` lines
99-115 and 312-352): `uploadFile` and `registry.getEntry` are started without
blocking ("Start file upload, do not block" / "Start getEntry, do not block")
and may complete in either order; `Promise.all` joins both, and only after the
join does `setJSON` issue the registry POST (`registry.setEntry`). -/
inductive WriteStep : WriteState → IOEvent → WriteState → Prop where
  | upload (s : WriteState) (h : s.uploadDone = false) :
      WriteStep s IOEvent.upload { s with uploadDone := true }
  | getEntryFetch (s : WriteState) (h : s.getEntryDone = false) :
      WriteStep s IOEvent.getEntryReq { s with getEntryDone := true }
  | post (s : WriteState) (hu : s.uploadDone = true) (hg : s.getEntryDone = true)
      (hp : s.postDone = false) :
      WriteStep s IOEvent.registryPost { s with postDone := true }

/-- Executions of the `setJSON` fork-join control flow: a trace of completed
I/O events between two states. -/
inductive WriteExec : WriteState → List IOEvent → WriteState → Prop where
  | nil (s : WriteState) : WriteExec s [] s
  | cons {s t u : WriteState} {ev : IOEvent} {tr : List IOEvent} :
      WriteStep s ev t → WriteExec t tr u → WriteExec s (ev :: tr) u

/-- The state at the start of a `setJSON` call: nothing has completed. -/
def initialWriteState : WriteState := ⟨false, false, false⟩

/-- Modelled from the spec: one hex digit of `toHexString` (absent from
src/). -/
def hexDigitChar (n : Nat) : Char := "0123456789abcdef".toList.getD n '0'

/-- Modelled from the spec: `toHexString` from `utils/string` (absent from
src/). -/
def toHexString (bs : Bytes) : String :=
  String.mk (bs.foldr (fun b acc => hexDigitChar (b / 16) :: hexDigitChar (b % 16) :: acc) [])

/-- Modelled from the spec: `deriveDiscoverableFileTweak` from `mysky/tweak`
(absent from src/) — the deterministic path-to-dataKey derivation, a hashed
hex string of the path. -/
def deriveDiscoverableFileTweak (path : String) : String := toHexString (hashDataKey path)

/-- `MySky.setEntryData` from `src/unnamed/part_005` lines 372-393, as a
function of the looked-up signed entry: data longer than `MAX_ENTRY_LENGTH`
throws a validation error before the `userID` remote call, the registry
lookup, the remote signing call or the registry POST happen; otherwise the
pipeline proceeds (and can still fail on revision exhaustion after the
lookup). The event list records the remote calls made. -/
def setEntryData (path : String) (data : Bytes) (signedEntry : SignedRegistryEntry) :
    Except String Bytes × List IOEvent :=
  if data.length > MAX_ENTRY_LENGTH then
    (Except.error
      ("Expected parameter data to be 'Uint8Array' of length <= 70, was length " ++
        toString data.length), [])
  else
    match getNextRegistryEntry signedEntry (deriveDiscoverableFileTweak path) data with
    | Except.error e => (Except.error e, [IOEvent.userID, IOEvent.getEntryReq])
    | Except.ok entry =>
        (Except.ok entry.data,
         [IOEvent.userID, IOEvent.getEntryReq, IOEvent.remoteSign, IOEvent.registryPost])

/-- `deleteJSON` from `src/dist/cjs/skydb.js` lines 126-142 against one
registry slot: look up the current entry, build the next entry whose data is
`new Uint8Array(RAW_SKYLINK_SIZE)` (all zeroes), sign it (signature left
abstract) and post it; no upload is performed. The event list records the
network calls made. -/
def deleteJSON (slot : Option (RegistryEntry × Bytes)) (dataKey : String) (sig : Bytes) :
    Except String (Option (RegistryEntry × Bytes)) × List IOEvent :=
  match getNextRegistryEntry (observeSlot slot) dataKey (List.replicate RAW_SKYLINK_SIZE 0) with
  | Except.error e => (Except.error e, [IOEvent.getEntryReq])
  | Except.ok entry =>
      (Except.ok (some (entry, sig)), [IOEvent.getEntryReq, IOEvent.registryPost])

/-- The literal `"revision":` that both revision regexes
(`src/dist/cjs/registry.js` lines 28-32) begin with. -/
def REV_LIT : List Char := ['"', 'r', 'e', 'v', 'i', 's', 'i', 'o', 'n', '"', ':']

/-- The regex class `[0-9]`. -/
def isDigitChar (c : Char) : Bool := 48 ≤ c.toNat && c.toNat ≤ 57

/-- The regex class `\s`, restricted to the ASCII whitespace characters. -/
def isSpaceChar (c : Char) : Bool :=
  c.toNat = 32 || c.toNat = 9 || c.toNat = 10 || c.toNat = 13

/-- A hex digit, the character set of the hex-encoded wire fields. -/
def isHexDigitChar (c : Char) : Bool :=
  isDigitChar c || (97 ≤ c.toNat && c.toNat ≤ 102) || (65 ≤ c.toNat && c.toNat ≤ 70)

/-- A match of `REGEX_REVISION_NO_QUOTES` = `/"revision":\s*([0-9]+)/`
(`registry.js` line 28) at the head of `l`: the captured digits and the text
after the match. -/
def matchRevisionNoQuotes (l : List Char) : Option (List Char × List Char) :=
  if listStartsWith REV_LIT l then
    let rest1 := (l.drop REV_LIT.length).dropWhile isSpaceChar
    let digits := rest1.takeWhile isDigitChar
    if digits.isEmpty then none else some (digits, rest1.dropWhile isDigitChar)
  else none

/-- A match of `REGEX_REVISION_WITH_QUOTES` = `/"revision":\s*"([0-9]+)"/`
(`registry.js` line 32) at the head of `l`. -/
def matchRevisionWithQuotes (l : List Char) : Option (List Char × List Char) :=
  if listStartsWith REV_LIT l then
    match (l.drop REV_LIT.length).dropWhile isSpaceChar with
    | '"' :: rest2 =>
      let digits := rest2.takeWhile isDigitChar
      if digits.isEmpty then none
      else
        match rest2.dropWhile isDigitChar with
        | '"' :: rest3 => some (digits, rest3)
        | _ => none
    | _ => none
  else none

/-- The `transformResponse` of `getEntry` (`registry.js` lines 61-75):
JS `String.replace` with the non-global `REGEX_REVISION_NO_QUOTES` and
replacement `'"revision":"$1"'` — the leftmost match has quotes put around its
captured digits; everything else is kept. -/
def addRevisionQuotes : List Char → List Char
  | [] => []
  | c :: cs =>
    match matchRevisionNoQuotes (c :: cs) with
    | some (digits, rest) => REV_LIT ++ ('"' :: (digits ++ ('"' :: rest)))
    | none => c :: addRevisionQuotes cs

/-- The `transformRequest` of `postSignedEntry` (`registry.js` lines 288-293):
JS `String.replace` with the non-global `REGEX_REVISION_WITH_QUOTES` and
replacement `'"revision":$1'` — the leftmost match has the quotes around its
captured digits removed; everything else is kept. -/
def stripRevisionQuotes : List Char → List Char
  | [] => []
  | c :: cs =>
    match matchRevisionWithQuotes (c :: cs) with
    | some (digits, rest) => REV_LIT ++ (digits ++ rest)
    | none => c :: stripRevisionQuotes cs

/-- One decimal digit. -/
def digitChar (k : Nat) : Char :=
  ['0', '1', '2', '3', '4', '5', '6', '7', '8', '9'].getD k '9'

/-- The decimal rendering of a natural number (JS `BigInt.toString` /
`JSON.stringify` of an integer). -/
def natToDecimal (n : Nat) : List Char :=
  if n < 10 then [digitChar (n % 10)]
  else natToDecimal (n / 10) ++ [digitChar (n % 10)]
termination_by n
decreasing_by exact Nat.div_lt_self (by omega) (by omega)

/-- The elements of `JSON.stringify` of a JS number array, without the
brackets. -/
def renderNumListInner : List Nat → List Char
  | [] => []
  | [n] => natToDecimal n
  | n :: rest => natToDecimal n ++ (',' :: renderNumListInner rest)

/-- `JSON.stringify` of a JS number array (as produced by `Array.from` on the
byte arrays of the POST body). -/
def renderNumList (l : List Nat) : List Char :=
  '[' :: (renderNumListInner l ++ [']'])

/-- The registry GET response body as served by the portal (spec section 6:
fields `data`, `revision`, `signature`; `revision` a bare JSON integer
literal). -/
def renderGetEntryResponse (dataHex : List Char) (revision : Nat)
    (sigHex : List Char) : List Char :=
  ['\x7b', '"', 'd', 'a', 't', 'a', '"', ':'] ++
    ('"' :: (dataHex ++ ('"' :: (',' ::
      (REV_LIT ++ (natToDecimal revision ++ (',' ::
        (['"', 's', 'i', 'g', 'n', 'a', 't', 'u', 'r', 'e', '"', ':'] ++
          ('"' :: (sigHex ++ ['"', '\x7d']))))))))))

/-- The same response with the revision value quoted — what the response
transform must produce so that `JSON.parse` sees the revision as a string. -/
def renderGetEntryResponseQuoted (dataHex : List Char) (revision : Nat)
    (sigHex : List Char) : List Char :=
  ['\x7b', '"', 'd', 'a', 't', 'a', '"', ':'] ++
    ('"' :: (dataHex ++ ('"' :: (',' ::
      (REV_LIT ++ ('"' :: (natToDecimal revision ++ ('"' :: (',' ::
        (['"', 's', 'i', 'g', 'n', 'a', 't', 'u', 'r', 'e', '"', ':'] ++
          ('"' :: (sigHex ++ ['"', '\x7d']))))))))))))

/-- `JSON.stringify` of the POST body built by `postSignedEntry`
(`registry.js` lines 269-280), in its insertion order: `publickey`
(`algorithm`, `key`), `datakey`, `revision` (a decimal STRING), `data`,
`signature`. -/
def renderPostBody (key : List Nat) (datakey : List Char) (revision : Nat)
    (data signature : List Nat) : List Char :=
  ['\x7b', '"', 'p', 'u', 'b', 'l', 'i', 'c', 'k', 'e', 'y', '"', ':', '\x7b',
   '"', 'a', 'l', 'g', 'o', 'r', 'i', 't', 'h', 'm', '"', ':',
   '"', 'e', 'd', '2', '5', '5', '1', '9', '"', ',',
   '"', 'k', 'e', 'y', '"', ':'] ++
    (renderNumList key ++
      (['\x7d', ',', '"', 'd', 'a', 't', 'a', 'k', 'e', 'y', '"', ':'] ++
        ('"' :: (datakey ++ ('"' :: (',' ::
          (REV_LIT ++ ('"' :: (natToDecimal revision ++ ('"' :: (',' ::
            (['"', 'd', 'a', 't', 'a', '"', ':'] ++
              (renderNumList data ++
                ((',' :: ['"', 's', 'i', 'g', 'n', 'a', 't', 'u', 'r', 'e', '"', ':']) ++
                  (renderNumList signature ++ ['\x7d'])))))))))))))))

/-- The POST body after the request transform: identical except that the
revision value is a bare JSON integer literal (what the Go server parses as a
uint64). -/
def renderPostBodyStripped (key : List Nat) (datakey : List Char) (revision : Nat)
    (data signature : List Nat) : List Char :=
  ['\x7b', '"', 'p', 'u', 'b', 'l', 'i', 'c', 'k', 'e', 'y', '"', ':', '\x7b',
   '"', 'a', 'l', 'g', 'o', 'r', 'i', 't', 'h', 'm', '"', ':',
   '"', 'e', 'd', '2', '5', '5', '1', '9', '"', ',',
   '"', 'k', 'e', 'y', '"', ':'] ++
    (renderNumList key ++
      (['\x7d', ',', '"', 'd', 'a', 't', 'a', 'k', 'e', 'y', '"', ':'] ++
        ('"' :: (datakey ++ ('"' :: (',' ::
          (REV_LIT ++ (natToDecimal revision ++ (',' ::
            (['"', 'd', 'a', 't', 'a', '"', ':'] ++
              (renderNumList data ++
                ((',' :: ['"', 's', 'i', 'g', 'n', 'a', 't', 'u', 'r', 'e', '"', ':']) ++
                  (renderNumList signature ++ ['\x7d'])))))))))))))

/-- A concrete text chunk is safe to scan over when every `"` inside it is
followed (inside the chunk) by a character other than `r`, so no revision-field
match can begin inside it. -/
def chunkSafe : List Char → Bool
  | [] => true
  | c :: rest =>
    if c == '"' then
      match rest with
      | [] => false
      | c2 :: _ => (c2 != 'r') && chunkSafe rest
    else chunkSafe rest

end Skynet

namespace Skynet

/-- C1: for the signed registry entry used to compute the next revision in a
SkyDB write, an absent entry yields next revision 0; a present entry with
revision `r < 2^64 - 1` yields `r + 1`; a present entry with revision
`2^64 - 1` fails with the revision-exhausted error instead of producing a
revision. -/
theorem C1_next_revision :
    getNextRevisionFromEntry none = Except.ok 0 ∧
    (∀ e : RegistryEntry, e.revision < 2 ^ 64 - 1 →
      getNextRevisionFromEntry (some e) = Except.ok (e.revision + 1)) ∧
    (∀ e : RegistryEntry, e.revision = 2 ^ 64 - 1 →
      getNextRevisionFromEntry (some e) =
        Except.error
          "Current entry already has maximum allowed revision, could not update the entry") := by
  refine ⟨rfl, ?_, ?_⟩ <;> intro e h <;>
    simp only [getNextRevisionFromEntry, MAX_REVISION, gt_iff_lt]
  · rw [if_neg (by omega)]
  · rw [if_pos (by omega)]

/-- Witness for C1: concrete instances of each hypothesis-bearing conjunct. -/
theorem C1_next_revision_witness :
    getNextRevisionFromEntry (some ⟨"app", [1, 2], 3⟩) = Except.ok 4 ∧
    getNextRevisionFromEntry (some ⟨"app", [1, 2], 2 ^ 64 - 1⟩) =
      Except.error
        "Current entry already has maximum allowed revision, could not update the entry" :=
  ⟨C1_next_revision.2.1 ⟨"app", [1, 2], 3⟩ (by norm_num),
   C1_next_revision.2.2 ⟨"app", [1, 2], 2 ^ 64 - 1⟩ (by norm_num)⟩

theorem absorb_length (width : Nat) (l : Bytes) :
    ∀ (acc : Bytes) (i : Nat), (absorb width acc i l).length = acc.length := by
  induction l with
  | nil => intro acc i; rfl
  | cons b rest ih => intro acc i; rw [absorb, ih, List.length_set]

theorem digest_length (width : Nat) (l : Bytes) : (digest width l).length = width := by
  rw [digest, absorb_length, List.length_replicate]

theorem hashRegistryEntry_length (e : RegistryEntry) (flag : Bool) :
    (hashRegistryEntry e flag).length = 32 :=
  digest_length 32 _

theorem naclSign_length (sk msg : Bytes) : (naclSign sk msg).length = 64 + msg.length := by
  rw [naclSign, List.length_append, naclSignDetached, digest_length]

/-- C2 (code-bug evidence): `signEntry` calls tweetnacl's ATTACHED `sign`, so
the signature it produces over an entry is the 64-byte detached signature
followed by a copy of the 32-byte entry hash — 96 bytes, not the 64-byte
detached signature the claim (and the spec, and the declared `Signature`
return type) require, and `sign.detached.verify` rejects it with
`bad signature size` instead of verifying it. -/
theorem C2_sign_entry_not_detached :
    ∀ (verifyCore : Bytes → Bytes → Bytes → Bool) (privateKey : String) (sk : Bytes)
      (entry : RegistryEntry),
      hexToUint8Array privateKey = some sk →
      signEntry privateKey entry false =
        Except.ok (naclSign sk (hashRegistryEntry entry false)) ∧
      (naclSign sk (hashRegistryEntry entry false)).length = 96 ∧
      naclSignDetachedVerify verifyCore (hashRegistryEntry entry false)
        (naclSign sk (hashRegistryEntry entry false))
        (publicKeyFromSecretKey sk) = Except.error "bad signature size" := by
  intro verifyCore privateKey sk entry h
  have hlen : (naclSign sk (hashRegistryEntry entry false)).length = 96 := by
    rw [naclSign_length, hashRegistryEntry_length]
  refine ⟨?_, hlen, ?_⟩
  · rw [signEntry, h]
  · rw [naclSignDetachedVerify, if_pos (by omega)]

set_option maxRecDepth 8000 in
/-- Witness for C2: a concrete 64-byte secret key and entry. -/
theorem C2_sign_entry_not_detached_witness :
    signEntry
      "00000000000000000000000000000000000000000000000000000000000000000000000000000000000000000000000000000000000000000000000000000000"
      ⟨"app", [1, 2, 3], 0⟩ false =
      Except.ok (naclSign (List.replicate 64 0)
        (hashRegistryEntry ⟨"app", [1, 2, 3], 0⟩ false)) ∧
    (naclSign (List.replicate 64 0) (hashRegistryEntry ⟨"app", [1, 2, 3], 0⟩ false)).length = 96 ∧
    naclSignDetachedVerify (fun _ _ _ => true) (hashRegistryEntry ⟨"app", [1, 2, 3], 0⟩ false)
      (naclSign (List.replicate 64 0) (hashRegistryEntry ⟨"app", [1, 2, 3], 0⟩ false))
      (publicKeyFromSecretKey (List.replicate 64 0)) = Except.error "bad signature size" :=
  C2_sign_entry_not_detached (fun _ _ _ => true)
    "00000000000000000000000000000000000000000000000000000000000000000000000000000000000000000000000000000000000000000000000000000000"
    (List.replicate 64 0) ⟨"app", [1, 2, 3], 0⟩ (by decide)

/-- C3: on a successful (2xx) registry GET response, `getEntry` checks the
returned signature against the recomputed entry digest and the provided public
key: it returns a signed entry only when that verification succeeds, and when
the check fails it throws the integrity error, never returning the unverified
entry. -/
theorem C3_get_entry_integrity :
    ∀ (verifyCore : Bytes → Bytes → Bytes → Bool) (pk dk : String) (flag : Bool)
      (resp : GetEntryResponseData),
      (∀ se, getEntry verifyCore pk dk flag (Except.ok resp) = Except.ok se →
        ∃ entry sig pub,
          se.entry = some entry ∧ se.signature = some sig ∧
          hexToUint8Array pk = some pub ∧
          naclSignDetachedVerify verifyCore (hashRegistryEntry entry flag) sig pub =
            Except.ok true) ∧
      (∀ revision sig data pub,
        jsBigIntOfString resp.revision = some revision →
        hexToUint8Array resp.signature = some sig →
        (if resp.data = "" then some ([] : Bytes) else hexToUint8Array resp.data) = some data →
        hexToUint8Array pk = some pub →
        naclSignDetachedVerify verifyCore (hashRegistryEntry ⟨dk, data, revision⟩ flag) sig pub =
          Except.ok false →
        getEntry verifyCore pk dk flag (Except.ok resp) =
          Except.error (GetEntryError.thrown
            "could not verify signature from retrieved, signed registry entry -- possible corrupted entry")) := by
  intro verifyCore pk dk flag resp
  constructor
  · intro se h
    simp only [getEntry, getEntrySuccess] at h
    repeat' split at h
    any_goals cases h
    exact ⟨_, _, _, rfl, rfl, by assumption, by assumption⟩
  · intro revision sig data pub hrev hsig hdata hpub hverify
    simp only [getEntry, getEntrySuccess, hrev, hsig, hdata, hpub, hverify]

set_option maxRecDepth 8000 in
/-- Witness for C3: a concrete response verified under an always-true core and
rejected under an always-false core. -/
theorem C3_get_entry_integrity_witness :
    (∃ entry sig pub,
      (⟨some ⟨"app", [], 7⟩, some (List.replicate 64 0)⟩ : SignedRegistryEntry).entry =
        some entry ∧
      (⟨some ⟨"app", [], 7⟩, some (List.replicate 64 0)⟩ : SignedRegistryEntry).signature =
        some sig ∧
      hexToUint8Array "0000000000000000000000000000000000000000000000000000000000000000" =
        some pub ∧
      naclSignDetachedVerify (fun _ _ _ => true) (hashRegistryEntry entry false) sig pub =
        Except.ok true) ∧
    getEntry (fun _ _ _ => false) "0000000000000000000000000000000000000000000000000000000000000000"
      "app" false
      (Except.ok ⟨"",
        "7",
        "00000000000000000000000000000000000000000000000000000000000000000000000000000000000000000000000000000000000000000000000000000000"⟩) =
      Except.error (GetEntryError.thrown
        "could not verify signature from retrieved, signed registry entry -- possible corrupted entry") :=
  ⟨(C3_get_entry_integrity (fun _ _ _ => true)
      "0000000000000000000000000000000000000000000000000000000000000000" "app" false
      ⟨"", "7",
        "00000000000000000000000000000000000000000000000000000000000000000000000000000000000000000000000000000000000000000000000000000000"⟩).1
    ⟨some ⟨"app", [], 7⟩, some (List.replicate 64 0)⟩ (by rfl),
   (C3_get_entry_integrity (fun _ _ _ => false)
      "0000000000000000000000000000000000000000000000000000000000000000" "app" false
      ⟨"", "7",
        "00000000000000000000000000000000000000000000000000000000000000000000000000000000000000000000000000000000000000000000000000000000"⟩).2
    7 (List.replicate 64 0) [] (List.replicate 32 0)
    (by decide) (by decide) (by decide) (by decide) (by rfl)⟩

/-- C4: a 404 response from the portal is not an error — `getEntry` returns
the absent signed entry `{entry: null, signature: null}`; any other failing
HTTP response (a response carrying a non-zero, non-404 status) is rethrown to
the caller unchanged, with no retry and no translation. -/
theorem C4_get_entry_404 :
    ∀ (err : AxiosError) (resp : AxiosResponseInfo) (status : Nat) (verifyCore) (pk dk : String)
      (flag : Bool),
      err.response = some resp → resp.status = some status → status ≠ 0 →
      (status = 404 →
        getEntry verifyCore pk dk flag (Except.error err) =
          Except.ok ⟨none, none⟩) ∧
      (status ≠ 404 →
        getEntry verifyCore pk dk flag (Except.error err) =
          Except.error (GetEntryError.original err)) := by
  intro err resp status verifyCore pk dk flag hresp hstatus h0
  constructor <;> intro h404 <;>
    simp [getEntry, handleGetEntryErrResponse, hresp, hstatus, h0, h404]

/-- Witness for C4: a concrete 404 error and a concrete 500 error. -/
theorem C4_get_entry_404_witness :
    getEntry (fun _ _ _ => true) "pk" "dk" false
      (Except.error ⟨some ⟨some 404⟩⟩) = Except.ok ⟨none, none⟩ ∧
    getEntry (fun _ _ _ => true) "pk" "dk" false
      (Except.error ⟨some ⟨some 500⟩⟩) =
      Except.error (GetEntryError.original ⟨some ⟨some 500⟩⟩) :=
  ⟨(C4_get_entry_404 ⟨some ⟨some 404⟩⟩ ⟨some 404⟩ 404 (fun _ _ _ => true) "pk" "dk" false
      rfl rfl (by decide)).1 rfl,
   (C4_get_entry_404 ⟨some ⟨some 500⟩⟩ ⟨some 500⟩ 500 (fun _ _ _ => true) "pk" "dk" false
      rfl rfl (by decide)).2 (by decide)⟩

theorem base64UrlGroups_length :
    ∀ (n : Nat) (l : Bytes), l.length = n →
      (base64UrlGroups l).length =
        4 * (n / 3) + (if n % 3 = 0 then 0 else n % 3 + 1) := by
  intro n
  induction n using Nat.strong_induction_on with
  | _ n ih =>
    intro l hl
    rcases l with _ | ⟨b1, _ | ⟨b2, _ | ⟨b3, rest⟩⟩⟩
    · simp only [List.length_nil] at hl
      subst hl; simp [base64UrlGroups]
    · simp only [List.length_cons, List.length_nil] at hl
      subst hl; simp [base64UrlGroups]
    · simp only [List.length_cons, List.length_nil] at hl
      subst hl; simp [base64UrlGroups]
    · simp only [List.length_cons] at hl
      have hrest : rest.length < n := by omega
      rw [show base64UrlGroups (b1 :: b2 :: b3 :: rest) =
            base64UrlChar (b1 / 4) :: base64UrlChar (b1 % 4 * 16 + b2 / 16) ::
            base64UrlChar (b2 % 16 * 4 + b3 / 64) :: base64UrlChar (b3 % 64) ::
            base64UrlGroups rest from rfl]
      simp only [List.length_cons]
      rw [ih rest.length hrest rest rfl]
      have h3 : n % 3 = rest.length % 3 := by omega
      have h4 : n / 3 = rest.length / 3 + 1 := by omega
      rw [h3, h4]
      split <;> omega

theorem encodeSkylinkBase64_length_34 (data : Bytes) (h : data.length = 34) :
    (encodeSkylinkBase64 data).toList.length = 46 := by
  show (base64UrlGroups data).length = 46
  rw [base64UrlGroups_length 34 data h]
  decide

theorem listStartsWith_self_append : ∀ (p l : List Char), listStartsWith p (p ++ l) = true := by
  intro p l
  induction p with
  | nil => rfl
  | cons c cs ih => simp [listStartsWith, ih]

theorem parseSkylink_format (raw : String) (h : raw.toList.length = 46) :
    parseSkylink (formatSkylink raw) = some raw := by
  unfold parseSkylink formatSkylink
  have htl : (URI_SKYNET_PREFIX ++ raw).toList = URI_SKYNET_PREFIX.toList ++ raw.toList :=
    String.data_append _ _
  rw [htl, if_pos (listStartsWith_self_append _ _),
    show URI_SKYNET_PREFIX.toList.length = URI_SKYNET_PREFIX.toList.length from rfl,
    List.drop_left, if_pos (by rw [h]; rfl)]
  cases raw; rfl

theorem parseDataLink_ok (data : Bytes) (raw dl : String)
    (h : parseDataLink data true = Except.ok (raw, dl)) :
    raw.toList.length = 46 ∧ dl = formatSkylink raw := by
  unfold parseDataLink at h
  split at h
  · rename_i hcond
    cases h
    refine ⟨?_, rfl⟩
    show (data.map Char.ofNat).length = 46
    rw [List.length_map]
    exact hcond.2
  · split at h
    · rename_i hcond
      cases h
      exact ⟨encodeSkylinkBase64_length_34 data hcond, rfl⟩
    · cases h

/-- C5: `deleteJSON` writes an entry whose data is the all-zero byte array of
the raw skylink length without performing any upload; afterwards `getEntry`
observes a present entry with all-zero data while `getJSON` yields
`{data: null, dataLink: null}`, whereas a never-written slot is observed as an
absent entry — the deleted and never-written cases stay observably different
at the registry layer. -/
theorem C5_delete_json :
    ∀ (slot : Option (RegistryEntry × Bytes)) (dataKey : String) (sig : Bytes)
      (result : Option (RegistryEntry × Bytes)) (events : List IOEvent),
      deleteJSON slot dataKey sig = (Except.ok result, events) →
      ∃ e, result = some (e, sig) ∧
        e.data = List.replicate RAW_SKYLINK_SIZE 0 ∧
        IOEvent.upload ∉ events ∧
        (observeSlot result).entry = some e ∧
        (∀ cached download,
          getJSON (observeSlot result) cached download dataKey =
            (Except.ok (none, none), false)) ∧
        (observeSlot none).entry = none ∧
        (observeSlot result).entry ≠ (observeSlot none).entry := by
  intro slot dataKey sig result events h
  unfold deleteJSON at h
  split at h
  · simp only [Prod.mk.injEq] at h
    cases h.1
  · rename_i entry heq
    simp only [Prod.mk.injEq] at h
    obtain ⟨h1, h2⟩ := h
    cases h1
    subst h2
    unfold getNextRegistryEntry at heq
    split at heq
    · cases heq
    · cases heq
      refine ⟨_, rfl, rfl, by decide, rfl, ?_, rfl, by simp [observeSlot]⟩
      intro cached download
      simp [getJSON, observeSlot, getSkyDBRegistryEntry, areEqualUint8Arrays, EMPTY_SKYLINK]

/-- Witness for C5: deleting at a never-written slot. -/
theorem C5_delete_json_witness :
    ∃ e, (some (⟨"app", List.replicate RAW_SKYLINK_SIZE 0, 0⟩, [9]) :
        Option (RegistryEntry × Bytes)) = some (e, [9]) ∧
      e.data = List.replicate RAW_SKYLINK_SIZE 0 ∧
      IOEvent.upload ∉ [IOEvent.getEntryReq, IOEvent.registryPost] ∧
      (observeSlot (some (⟨"app", List.replicate RAW_SKYLINK_SIZE 0, 0⟩, [9]))).entry = some e ∧
      (∀ cached download,
        getJSON (observeSlot (some (⟨"app", List.replicate RAW_SKYLINK_SIZE 0, 0⟩, [9])))
            cached download "app" =
          (Except.ok (none, none), false)) ∧
      (observeSlot none).entry = none ∧
      (observeSlot (some (⟨"app", List.replicate RAW_SKYLINK_SIZE 0, 0⟩, [9]))).entry ≠
        (observeSlot none).entry :=
  C5_delete_json none "app" [9]
    (some (⟨"app", List.replicate RAW_SKYLINK_SIZE 0, 0⟩, [9]))
    [IOEvent.getEntryReq, IOEvent.registryPost] (by rfl)

/-- C6: when the caller-supplied `cachedDataLink` equals the data link
resolved from the registry entry, `getJSON` returns `{data: null,
dataLink: L}` without downloading the blob; when no cached link is supplied,
or a valid cached link resolving to a different skylink is supplied, the blob
download is performed. -/
theorem C6_cached_short_circuit :
    ∀ (signedEntry : SignedRegistryEntry) (entry : RegistryEntry) (raw dl : String)
      (download : String → JsValue) (dataKey : String),
      getSkyDBRegistryEntry signedEntry = some entry →
      parseDataLink entry.data true = Except.ok (raw, dl) →
      getJSON signedEntry (some dl) download dataKey =
        (Except.ok (none, some dl), false) ∧
      (∀ cached : Option String,
        (cached = none ∨
          ∃ c v, cached = some c ∧ c ≠ "" ∧ parseSkylink c = some v ∧ v ≠ raw) →
        (getJSON signedEntry cached download dataKey).2 = true) := by
  intro se entry raw dl download dataKey hse hparse
  obtain ⟨hlen, hdl⟩ := parseDataLink_ok entry.data raw dl hparse
  have hps : parseSkylink dl = some raw := by
    rw [hdl]; exact parseSkylink_format raw hlen
  constructor
  · have hdl_ne : dl ≠ "" := by
      intro hcon
      have : dl.toList.length = 0 := by rw [hcon]; rfl
      rw [hdl] at this
      have h2 : (formatSkylink raw).toList = URI_SKYNET_PREFIX.toList ++ raw.toList :=
        String.data_append _ _
      rw [h2, List.length_append, hlen] at this
      omega
    have hchk : checkCachedDataLink raw (some dl) = Except.ok true := by
      simp [checkCachedDataLink, validateSkylinkString, hdl_ne, hps]
    simp only [getJSON, hse, hparse, hchk]
  · intro cached hc
    rcases hc with rfl | ⟨c, v, rfl, hne, hpc, hvr⟩
    · simp only [getJSON, hse, hparse, checkCachedDataLink]
      split <;> rfl
    · have hchk : checkCachedDataLink raw (some c) = Except.ok false := by
        simp [checkCachedDataLink, validateSkylinkString, hne, hpc,
          beq_eq_false_iff_ne, Ne.symm hvr]
      simp only [getJSON, hse, hparse, hchk]
      split <;> rfl

/-- Witness for C6: a concrete 34-byte entry; with the matching cached link no
download happens, with no cached link the download is performed. -/
theorem C6_cached_short_circuit_witness :
    getJSON ⟨some ⟨"app", 1 :: List.replicate 33 0, 7⟩, some []⟩
        (some (formatSkylink (encodeSkylinkBase64 (1 :: List.replicate 33 0))))
        (fun _ => JsValue.null) "app" =
      (Except.ok (none, some (formatSkylink (encodeSkylinkBase64 (1 :: List.replicate 33 0)))),
        false) ∧
    (getJSON ⟨some ⟨"app", 1 :: List.replicate 33 0, 7⟩, some []⟩ none
        (fun _ => JsValue.null) "app").2 = true :=
  ⟨(C6_cached_short_circuit ⟨some ⟨"app", 1 :: List.replicate 33 0, 7⟩, some []⟩
      ⟨"app", 1 :: List.replicate 33 0, 7⟩
      (encodeSkylinkBase64 (1 :: List.replicate 33 0))
      (formatSkylink (encodeSkylinkBase64 (1 :: List.replicate 33 0)))
      (fun _ => JsValue.null) "app" (by rfl) (by rfl)).1,
   (C6_cached_short_circuit ⟨some ⟨"app", 1 :: List.replicate 33 0, 7⟩, some []⟩
      ⟨"app", 1 :: List.replicate 33 0, 7⟩
      (encodeSkylinkBase64 (1 :: List.replicate 33 0))
      (formatSkylink (encodeSkylinkBase64 (1 :: List.replicate 33 0)))
      (fun _ => JsValue.null) "app" (by rfl) (by rfl)).2 none (Or.inl rfl)⟩

/-- Counterexample to C7 as stated: the downloaded object
`{_data: 0, _v: 2}` has both the `_data` and `_v` keys, yet `getJSON` returns
the whole object, not the unwrapped value `0` of `_data`, because the source
tests JS truthiness of the values rather than key presence. -/
theorem C7_unwrap_counterexample :
    (getJSON ⟨some ⟨"k", 1 :: List.replicate 33 0, 7⟩, some []⟩ none
        (fun _ => JsValue.obj [("_data", JsValue.num 0), ("_v", JsValue.num 2)]) "k").1 =
      Except.ok (some (JsValue.obj [("_data", JsValue.num 0), ("_v", JsValue.num 2)]),
        some (formatSkylink (encodeSkylinkBase64 (1 :: List.replicate 33 0)))) ∧
    (∀ link, (getJSON ⟨some ⟨"k", 1 :: List.replicate 33 0, 7⟩, some []⟩ none
        (fun _ => JsValue.obj [("_data", JsValue.num 0), ("_v", JsValue.num 2)]) "k").1 ≠
      Except.ok (some (JsValue.num 0), link)) := by
  constructor
  · rfl
  · intro link h
    have h1 : (getJSON ⟨some ⟨"k", 1 :: List.replicate 33 0, 7⟩, some []⟩ none
        (fun _ => JsValue.obj [("_data", JsValue.num 0), ("_v", JsValue.num 2)]) "k").1 =
        Except.ok (some (JsValue.obj [("_data", JsValue.num 0), ("_v", JsValue.num 2)]),
          some (formatSkylink (encodeSkylinkBase64 (1 :: List.replicate 33 0)))) := rfl
    rw [h1] at h
    simp at h

/-- C7 as amended: a primitive (or null) downloaded payload is a format
error; an object whose `_data` and `_v` values are both truthy has `_data`
unwrapped (an error when that value is not object-typed); every other
object-typed payload — including objects carrying the keys with falsy values —
is returned unmodified. -/
theorem C7_unwrap_amended :
    ∀ (dataKey : String),
      (processDownloadedData dataKey JsValue.null =
        Except.error ("File data for the entry at data key '" ++ dataKey ++ "' is not JSON.")) ∧
      (∀ b, processDownloadedData dataKey (JsValue.bool b) =
        Except.error ("File data for the entry at data key '" ++ dataKey ++ "' is not JSON.")) ∧
      (∀ n, processDownloadedData dataKey (JsValue.num n) =
        Except.error ("File data for the entry at data key '" ++ dataKey ++ "' is not JSON.")) ∧
      (∀ s, processDownloadedData dataKey (JsValue.str s) =
        Except.error ("File data for the entry at data key '" ++ dataKey ++ "' is not JSON.")) ∧
      (∀ data, jsTypeofObject data = true → data ≠ JsValue.null →
        (jsTruthy (jsLookup data "_data") && jsTruthy (jsLookup data "_v")) = false →
        processDownloadedData dataKey data = Except.ok data) ∧
      (∀ data actualData, jsTypeofObject data = true → data ≠ JsValue.null →
        jsLookup data "_data" = some actualData →
        jsTruthy (some actualData) = true →
        jsTruthy (jsLookup data "_v") = true →
        processDownloadedData dataKey data =
          (if jsTypeofObject actualData then Except.ok actualData
           else Except.error
             ("File data '_data' for the entry at data key '" ++ dataKey ++ "' is not JSON."))) := by
  intro dataKey
  refine ⟨rfl, fun b => rfl, fun n => rfl, fun s => rfl, ?_, ?_⟩
  · intro data hobj hnull hfalsy
    cases data <;> simp_all [processDownloadedData, jsTypeofObject]
  · intro data actualData hobj hnull hlook htruthy hv
    cases data <;> simp_all [processDownloadedData, jsTypeofObject, jsLookup]

/-- Witness for C7's amended theorem: a wrapped object is unwrapped, a truthy
non-object `_data` errors, and an object with falsy `_data` is returned
as-is. -/
theorem C7_unwrap_amended_witness :
    processDownloadedData "k" (JsValue.obj [("_data", JsValue.obj []), ("_v", JsValue.num 2)]) =
      Except.ok (JsValue.obj []) ∧
    processDownloadedData "k" (JsValue.obj [("_data", JsValue.num 1), ("_v", JsValue.num 2)]) =
      Except.error "File data '_data' for the entry at data key 'k' is not JSON." ∧
    processDownloadedData "k" (JsValue.obj [("_data", JsValue.num 0), ("_v", JsValue.num 2)]) =
      Except.ok (JsValue.obj [("_data", JsValue.num 0), ("_v", JsValue.num 2)]) :=
  ⟨((C7_unwrap_amended "k").2.2.2.2.2
      (JsValue.obj [("_data", JsValue.obj []), ("_v", JsValue.num 2)]) (JsValue.obj [])
      rfl (fun h => JsValue.noConfusion h) rfl rfl rfl).trans rfl,
   ((C7_unwrap_amended "k").2.2.2.2.2
      (JsValue.obj [("_data", JsValue.num 1), ("_v", JsValue.num 2)]) (JsValue.num 1)
      rfl (fun h => JsValue.noConfusion h) rfl rfl rfl).trans rfl,
   (C7_unwrap_amended "k").2.2.2.2.1
      (JsValue.obj [("_data", JsValue.num 0), ("_v", JsValue.num 2)])
      rfl (fun h => JsValue.noConfusion h) rfl⟩

theorem char_ne_of_pred {p : Char → Bool} {c d : Char} (hc : p c = true)
    (hd : p d = false) : c ≠ d :=
  fun h => by rw [h, hd] at hc; cases hc

theorem listStartsWith_rev_cons {c : Char} (h : c ≠ '"') (cs : List Char) :
    listStartsWith REV_LIT (c :: cs) = false := by
  have hbe : ('"' == c) = false := beq_eq_false_iff_ne.mpr (Ne.symm h)
  simp [REV_LIT, listStartsWith, hbe]

theorem listStartsWith_rev_quote {c : Char} (h : c ≠ 'r') (cs : List Char) :
    listStartsWith REV_LIT ('"' :: c :: cs) = false := by
  have hbe : ('r' == c) = false := beq_eq_false_iff_ne.mpr (Ne.symm h)
  simp [REV_LIT, listStartsWith, hbe]

theorem matchRevisionNoQuotes_cons_ne {c : Char} (h : c ≠ '"') (cs : List Char) :
    matchRevisionNoQuotes (c :: cs) = none := by
  simp [matchRevisionNoQuotes, listStartsWith_rev_cons h]

theorem matchRevisionWithQuotes_cons_ne {c : Char} (h : c ≠ '"') (cs : List Char) :
    matchRevisionWithQuotes (c :: cs) = none := by
  simp [matchRevisionWithQuotes, listStartsWith_rev_cons h]

theorem matchRevisionNoQuotes_quote (cs : List Char)
    (h : ∀ c, cs.head? = some c → c ≠ 'r') :
    matchRevisionNoQuotes ('"' :: cs) = none := by
  cases cs with
  | nil => decide
  | cons c2 r => simp [matchRevisionNoQuotes, listStartsWith_rev_quote (h c2 rfl)]

theorem matchRevisionWithQuotes_quote (cs : List Char)
    (h : ∀ c, cs.head? = some c → c ≠ 'r') :
    matchRevisionWithQuotes ('"' :: cs) = none := by
  cases cs with
  | nil => decide
  | cons c2 r => simp [matchRevisionWithQuotes, listStartsWith_rev_quote (h c2 rfl)]

theorem addRevisionQuotes_cons_ne {c : Char} (h : c ≠ '"') (cs : List Char) :
    addRevisionQuotes (c :: cs) = c :: addRevisionQuotes cs := by
  simp only [addRevisionQuotes, matchRevisionNoQuotes_cons_ne h]

theorem stripRevisionQuotes_cons_ne {c : Char} (h : c ≠ '"') (cs : List Char) :
    stripRevisionQuotes (c :: cs) = c :: stripRevisionQuotes cs := by
  simp only [stripRevisionQuotes, matchRevisionWithQuotes_cons_ne h]

theorem addRevisionQuotes_quote (cs : List Char)
    (h : ∀ c, cs.head? = some c → c ≠ 'r') :
    addRevisionQuotes ('"' :: cs) = '"' :: addRevisionQuotes cs := by
  simp only [addRevisionQuotes, matchRevisionNoQuotes_quote cs h]

theorem stripRevisionQuotes_quote (cs : List Char)
    (h : ∀ c, cs.head? = some c → c ≠ 'r') :
    stripRevisionQuotes ('"' :: cs) = '"' :: stripRevisionQuotes cs := by
  simp only [stripRevisionQuotes, matchRevisionWithQuotes_quote cs h]

theorem addRevisionQuotes_skip (l : List Char) (h : ∀ c ∈ l, c ≠ '"') :
    ∀ rest, addRevisionQuotes (l ++ rest) = l ++ addRevisionQuotes rest := by
  induction l with
  | nil => intro rest; rfl
  | cons c cs ih =>
    intro rest
    rw [List.cons_append, addRevisionQuotes_cons_ne (h c (by simp)),
      ih (fun x hx => h x (by simp [hx])) rest, List.cons_append]

theorem stripRevisionQuotes_skip (l : List Char) (h : ∀ c ∈ l, c ≠ '"') :
    ∀ rest, stripRevisionQuotes (l ++ rest) = l ++ stripRevisionQuotes rest := by
  induction l with
  | nil => intro rest; rfl
  | cons c cs ih =>
    intro rest
    rw [List.cons_append, stripRevisionQuotes_cons_ne (h c (by simp)),
      ih (fun x hx => h x (by simp [hx])) rest, List.cons_append]

theorem chunkSafe_quote_cons (c2 : Char) (r2 : List Char) :
    chunkSafe ('"' :: c2 :: r2) = ((c2 != 'r') && chunkSafe (c2 :: r2)) := by
  rw [chunkSafe.eq_def]
  simp

theorem chunkSafe_cons_ne {c : Char} (h : c ≠ '"') (cs : List Char) :
    chunkSafe (c :: cs) = chunkSafe cs := by
  rw [chunkSafe.eq_def]
  simp [h]

theorem addRevisionQuotes_chunk (l : List Char) :
    chunkSafe l = true →
    ∀ rest, addRevisionQuotes (l ++ rest) = l ++ addRevisionQuotes rest := by
  induction l with
  | nil => intro _ rest; rfl
  | cons c cs ih =>
    intro hsafe rest
    rw [List.cons_append]
    by_cases hc : c = '"'
    · subst hc
      cases cs with
      | nil => exact absurd hsafe (by decide)
      | cons c2 r2 =>
        rw [chunkSafe_quote_cons] at hsafe
        simp only [Bool.and_eq_true, bne_iff_ne] at hsafe
        rw [addRevisionQuotes_quote ((c2 :: r2) ++ rest)
            (by intro x hx
                rw [List.cons_append, List.head?_cons] at hx
                injection hx with h
                subst h
                exact hsafe.1),
          ih hsafe.2 rest]
        simp
    · have h2 : chunkSafe cs = true := by
        rw [chunkSafe_cons_ne hc] at hsafe
        exact hsafe
      rw [addRevisionQuotes_cons_ne hc, ih h2 rest, List.cons_append]

theorem stripRevisionQuotes_chunk (l : List Char) :
    chunkSafe l = true →
    ∀ rest, stripRevisionQuotes (l ++ rest) = l ++ stripRevisionQuotes rest := by
  induction l with
  | nil => intro _ rest; rfl
  | cons c cs ih =>
    intro hsafe rest
    rw [List.cons_append]
    by_cases hc : c = '"'
    · subst hc
      cases cs with
      | nil => exact absurd hsafe (by decide)
      | cons c2 r2 =>
        rw [chunkSafe_quote_cons] at hsafe
        simp only [Bool.and_eq_true, bne_iff_ne] at hsafe
        rw [stripRevisionQuotes_quote ((c2 :: r2) ++ rest)
            (by intro x hx
                rw [List.cons_append, List.head?_cons] at hx
                injection hx with h
                subst h
                exact hsafe.1),
          ih hsafe.2 rest]
        simp
    · have h2 : chunkSafe cs = true := by
        rw [chunkSafe_cons_ne hc] at hsafe
        exact hsafe
      rw [stripRevisionQuotes_cons_ne hc, ih h2 rest, List.cons_append]

theorem takeWhile_dropWhile_split (p : Char → Bool) :
    ∀ (l : List Char), (∀ x ∈ l, p x = true) → ∀ (c : Char), p c = false →
      ∀ (r : List Char),
        (l ++ c :: r).takeWhile p = l ∧ (l ++ c :: r).dropWhile p = c :: r := by
  intro l
  induction l with
  | nil =>
    intro _ c hc r
    constructor <;> simp [List.takeWhile_cons, List.dropWhile_cons, hc]
  | cons a l ih =>
    intro hl c hc r
    have ha : p a = true := hl a (by simp)
    obtain ⟨h1, h2⟩ := ih (fun x hx => hl x (by simp [hx])) c hc r
    constructor <;> simp [List.takeWhile_cons, List.dropWhile_cons, ha, h1, h2]

theorem digitChar_isDigit (k : Nat) : isDigitChar (digitChar k) = true := by
  unfold digitChar
  by_cases h : k < 10
  · interval_cases k <;> decide
  · rw [List.getD_eq_default]
    · decide
    · simp; omega

theorem natToDecimal_all_digits :
    ∀ n, ∀ c ∈ natToDecimal n, isDigitChar c = true := by
  intro n
  induction n using Nat.strong_induction_on with
  | _ n ih =>
    intro c hc
    rw [natToDecimal] at hc
    split at hc
    · simp only [List.mem_singleton] at hc
      subst hc
      exact digitChar_isDigit _
    · rename_i h
      rw [List.mem_append] at hc
      rcases hc with hc | hc
      · exact ih (n / 10) (Nat.div_lt_self (by omega) (by omega)) c hc
      · simp only [List.mem_singleton] at hc
        subst hc
        exact digitChar_isDigit _

theorem natToDecimal_ne_nil (n : Nat) : natToDecimal n ≠ [] := by
  rw [natToDecimal]
  split <;> simp

theorem renderNumListInner_no_quote :
    ∀ (l : List Nat), ∀ c ∈ renderNumListInner l, c ≠ '"' := by
  intro l
  induction l with
  | nil => simp [renderNumListInner]
  | cons n rest ih =>
    cases rest with
    | nil =>
      intro c hc
      simp only [renderNumListInner] at hc
      exact char_ne_of_pred (natToDecimal_all_digits n c hc) (by decide)
    | cons m r =>
      intro c hc
      simp only [renderNumListInner, List.mem_append, List.mem_cons] at hc
      rcases hc with hc | hc | hc
      · exact char_ne_of_pred (natToDecimal_all_digits n c hc) (by decide)
      · subst hc; decide
      · exact ih c hc

theorem renderNumList_no_quote (l : List Nat) : ∀ c ∈ renderNumList l, c ≠ '"' := by
  intro c hc
  simp only [renderNumList, List.mem_cons, List.mem_append, List.mem_singleton,
    List.not_mem_nil, or_false] at hc
  rcases hc with hc | hc | hc
  · subst hc; decide
  · exact renderNumListInner_no_quote l c hc
  · subst hc; decide

theorem matchRevisionNoQuotes_at (digits : List Char) (hne : digits ≠ [])
    (hdig : ∀ c ∈ digits, isDigitChar c = true) (c : Char) (hc : isDigitChar c = false)
    (rest : List Char) :
    matchRevisionNoQuotes (REV_LIT ++ (digits ++ (c :: rest))) =
      some (digits, c :: rest) := by
  obtain ⟨d, ds, rfl⟩ : ∃ d ds, digits = d :: ds := by
    cases digits with
    | nil => exact absurd rfl hne
    | cons d ds => exact ⟨d, ds, rfl⟩
  have hd : isDigitChar d = true := hdig d (by simp)
  have hds : isSpaceChar d = false := by
    simp only [isDigitChar, Bool.and_eq_true, decide_eq_true_eq] at hd
    simp only [isSpaceChar, Bool.or_eq_false_iff, decide_eq_false_iff_not]
    omega
  obtain ⟨ht, hdw⟩ := takeWhile_dropWhile_split isDigitChar (d :: ds) hdig c hc rest
  have hdrop : List.dropWhile isSpaceChar (d :: (ds ++ c :: rest)) = d :: (ds ++ c :: rest) := by
    rw [List.dropWhile_cons]
    simp [hds]
  rw [matchRevisionNoQuotes, if_pos (listStartsWith_self_append _ _), List.drop_left]
  simp only [List.cons_append] at ht hdw ⊢
  rw [hdrop, ht, hdw]
  simp

theorem matchRevisionWithQuotes_at (digits : List Char) (hne : digits ≠ [])
    (hdig : ∀ c ∈ digits, isDigitChar c = true) (rest : List Char) :
    matchRevisionWithQuotes (REV_LIT ++ ('"' :: (digits ++ ('"' :: rest)))) =
      some (digits, rest) := by
  obtain ⟨ht, hdw⟩ := takeWhile_dropWhile_split isDigitChar digits hdig '"' (by decide) rest
  rw [matchRevisionWithQuotes, if_pos (listStartsWith_self_append _ _), List.drop_left,
    List.dropWhile_cons, if_neg (by decide)]
  simp only [ht, hdw]
  rw [if_neg (by simp [hne])]

theorem addRevisionQuotes_at (digits : List Char) (hne : digits ≠ [])
    (hdig : ∀ c ∈ digits, isDigitChar c = true) (c : Char) (hc : isDigitChar c = false)
    (rest : List Char) :
    addRevisionQuotes (REV_LIT ++ (digits ++ (c :: rest))) =
      REV_LIT ++ ('"' :: (digits ++ ('"' :: (c :: rest)))) := by
  have hm : matchRevisionNoQuotes
      ('"' :: ('r' :: 'e' :: 'v' :: 'i' :: 's' :: 'i' :: 'o' :: 'n' :: '"' :: ':' ::
        (digits ++ (c :: rest)))) = some (digits, c :: rest) :=
    matchRevisionNoQuotes_at digits hne hdig c hc rest
  show addRevisionQuotes
      ('"' :: ('r' :: 'e' :: 'v' :: 'i' :: 's' :: 'i' :: 'o' :: 'n' :: '"' :: ':' ::
        (digits ++ (c :: rest)))) = _
  simp only [addRevisionQuotes, hm]

theorem stripRevisionQuotes_at (digits : List Char) (hne : digits ≠ [])
    (hdig : ∀ c ∈ digits, isDigitChar c = true) (rest : List Char) :
    stripRevisionQuotes (REV_LIT ++ ('"' :: (digits ++ ('"' :: rest)))) =
      REV_LIT ++ (digits ++ rest) := by
  have hm : matchRevisionWithQuotes
      ('"' :: ('r' :: 'e' :: 'v' :: 'i' :: 's' :: 'i' :: 'o' :: 'n' :: '"' :: ':' ::
        ('"' :: (digits ++ ('"' :: rest))))) = some (digits, rest) :=
    matchRevisionWithQuotes_at digits hne hdig rest
  show stripRevisionQuotes
      ('"' :: ('r' :: 'e' :: 'v' :: 'i' :: 's' :: 'i' :: 'o' :: 'n' :: '"' :: ':' ::
        ('"' :: (digits ++ ('"' :: rest))))) = _
  simp only [stripRevisionQuotes, hm]

theorem addRevisionQuotes_hexvalue (hex : List Char)
    (hhex : ∀ c ∈ hex, isHexDigitChar c = true) (rest : List Char)
    (hrest : ∀ c, rest.head? = some c → c ≠ 'r') :
    addRevisionQuotes ('"' :: (hex ++ ('"' :: rest))) =
      '"' :: (hex ++ ('"' :: addRevisionQuotes rest)) := by
  rw [addRevisionQuotes_quote (hex ++ ('"' :: rest))
      (by intro x hx
          cases hex with
          | nil =>
            rw [List.nil_append, List.head?_cons] at hx
            injection hx with h
            subst h
            decide
          | cons h0 t =>
            rw [List.cons_append, List.head?_cons] at hx
            injection hx with h
            subst h
            exact char_ne_of_pred (hhex h0 (by simp)) (by decide)),
    addRevisionQuotes_skip hex (fun c hc => char_ne_of_pred (hhex c hc) (by decide))
      ('"' :: rest),
    addRevisionQuotes_quote rest hrest]

theorem stripRevisionQuotes_hexvalue (hex : List Char)
    (hhex : ∀ c ∈ hex, isHexDigitChar c = true) (rest : List Char)
    (hrest : ∀ c, rest.head? = some c → c ≠ 'r') :
    stripRevisionQuotes ('"' :: (hex ++ ('"' :: rest))) =
      '"' :: (hex ++ ('"' :: stripRevisionQuotes rest)) := by
  rw [stripRevisionQuotes_quote (hex ++ ('"' :: rest))
      (by intro x hx
          cases hex with
          | nil =>
            rw [List.nil_append, List.head?_cons] at hx
            injection hx with h
            subst h
            decide
          | cons h0 t =>
            rw [List.cons_append, List.head?_cons] at hx
            injection hx with h
            subst h
            exact char_ne_of_pred (hhex h0 (by simp)) (by decide)),
    stripRevisionQuotes_skip hex (fun c hc => char_ne_of_pred (hhex c hc) (by decide))
      ('"' :: rest),
    stripRevisionQuotes_quote rest hrest]

theorem writeExec_append_split {s u : WriteState} :
    ∀ (a b : List IOEvent), WriteExec s (a ++ b) u →
      ∃ t, WriteExec s a t ∧ WriteExec t b u := by
  intro a
  induction a generalizing s with
  | nil => intro b h; exact ⟨s, WriteExec.nil s, h⟩
  | cons ev rest ih =>
    intro b h
    cases h with
    | cons hstep hrest =>
      obtain ⟨t, h1, h2⟩ := ih _ hrest
      exact ⟨t, WriteExec.cons hstep h1, h2⟩

theorem writeExec_upload_mem {s u : WriteState} {tr : List IOEvent} :
    WriteExec s tr u → u.uploadDone = true →
      s.uploadDone = true ∨ IOEvent.upload ∈ tr := by
  intro hexec
  induction hexec with
  | nil => exact fun h => Or.inl h
  | cons hstep _ ih =>
    intro h
    cases hstep with
    | upload h' => exact Or.inr (List.mem_cons_self _ _)
    | getEntryFetch h' =>
      rcases ih h with h2 | h2
      · exact Or.inl h2
      · exact Or.inr (List.mem_cons_of_mem _ h2)
    | post hu hg hp =>
      rcases ih h with h2 | h2
      · exact Or.inl h2
      · exact Or.inr (List.mem_cons_of_mem _ h2)

theorem writeExec_getEntry_mem {s u : WriteState} {tr : List IOEvent} :
    WriteExec s tr u → u.getEntryDone = true →
      s.getEntryDone = true ∨ IOEvent.getEntryReq ∈ tr := by
  intro hexec
  induction hexec with
  | nil => exact fun h => Or.inl h
  | cons hstep _ ih =>
    intro h
    cases hstep with
    | getEntryFetch h' => exact Or.inr (List.mem_cons_self _ _)
    | upload h' =>
      rcases ih h with h2 | h2
      · exact Or.inl h2
      · exact Or.inr (List.mem_cons_of_mem _ h2)
    | post hu hg hp =>
      rcases ih h with h2 | h2
      · exact Or.inl h2
      · exact Or.inr (List.mem_cons_of_mem _ h2)

/-- C9: in every execution of a `setJSON` write, the registry POST occurs
strictly after both the content upload and the registry-entry read have
completed — both appear in the trace before it — while the upload and the
read themselves have no required relative order: traces with either order are
both realizable. -/
theorem C9_post_after_join :
    (∀ (tr₁ tr₂ : List IOEvent) (s' : WriteState),
      WriteExec initialWriteState (tr₁ ++ IOEvent.registryPost :: tr₂) s' →
      IOEvent.upload ∈ tr₁ ∧ IOEvent.getEntryReq ∈ tr₁) ∧
    WriteExec initialWriteState
      [IOEvent.upload, IOEvent.getEntryReq, IOEvent.registryPost] ⟨true, true, true⟩ ∧
    WriteExec initialWriteState
      [IOEvent.getEntryReq, IOEvent.upload, IOEvent.registryPost] ⟨true, true, true⟩ := by
  refine ⟨?_, ?_, ?_⟩
  · intro tr₁ tr₂ s' h
    obtain ⟨mid, h1, h2⟩ := writeExec_append_split tr₁ (IOEvent.registryPost :: tr₂) h
    cases h2 with
    | cons hstep _ =>
      cases hstep with
      | post hu hg hp =>
        constructor
        · rcases writeExec_upload_mem h1 hu with hcon | hmem
          · exact absurd hcon (by simp [initialWriteState])
          · exact hmem
        · rcases writeExec_getEntry_mem h1 hg with hcon | hmem
          · exact absurd hcon (by simp [initialWriteState])
          · exact hmem
  · exact WriteExec.cons (WriteStep.upload _ rfl)
      (WriteExec.cons (WriteStep.getEntryFetch _ rfl)
        (WriteExec.cons (WriteStep.post _ rfl rfl rfl) (WriteExec.nil _)))
  · exact WriteExec.cons (WriteStep.getEntryFetch _ rfl)
      (WriteExec.cons (WriteStep.upload _ rfl)
        (WriteExec.cons (WriteStep.post _ rfl rfl rfl) (WriteExec.nil _)))

/-- Witness for C9: the ordering conjunct applied to a concrete execution. -/
theorem C9_post_after_join_witness :
    IOEvent.upload ∈ [IOEvent.upload, IOEvent.getEntryReq] ∧
    IOEvent.getEntryReq ∈ [IOEvent.upload, IOEvent.getEntryReq] :=
  C9_post_after_join.1 [IOEvent.upload, IOEvent.getEntryReq] [] ⟨true, true, true⟩
    C9_post_after_join.2.1

/-- C10: `MySky.setEntryData` with data longer than 70 bytes
(`MAX_ENTRY_LENGTH`) fails with the validation error before any remote call —
no signing and no network request is recorded; with data of at most 70 bytes
the length check passes and the pipeline proceeds to its remote calls. -/
theorem C10_set_entry_data_length :
    ∀ (path : String) (data : Bytes) (signedEntry : SignedRegistryEntry),
      (data.length > MAX_ENTRY_LENGTH →
        setEntryData path data signedEntry =
          (Except.error
            ("Expected parameter data to be 'Uint8Array' of length <= 70, was length " ++
              toString data.length), [])) ∧
      (data.length ≤ MAX_ENTRY_LENGTH →
        (setEntryData path data signedEntry).2 ≠ [] ∧
        IOEvent.userID ∈ (setEntryData path data signedEntry).2) := by
  intro path data signedEntry
  constructor
  · intro h
    rw [setEntryData, if_pos h]
  · intro h
    rw [setEntryData, if_neg (by omega)]
    split <;> simp

/-- C8: on the wire payloads of the registry protocol, the request transform
of `postSignedEntry` turns exactly the quoted decimal revision string of the
stringified POST body into a bare JSON integer literal, and the response
transform of `getEntry` puts the quotes back around exactly the bare revision
integer of the GET response — in both directions every other character of the
payload is unchanged. -/
theorem C8_revision_quote_transforms :
    ∀ (dataHex sigHex datakey : List Char) (revision : Nat)
      (key data signature : List Nat),
      (∀ c ∈ dataHex, isHexDigitChar c = true) →
      (∀ c ∈ sigHex, isHexDigitChar c = true) →
      (∀ c ∈ datakey, isHexDigitChar c = true) →
      addRevisionQuotes (renderGetEntryResponse dataHex revision sigHex) =
        renderGetEntryResponseQuoted dataHex revision sigHex ∧
      stripRevisionQuotes (renderPostBody key datakey revision data signature) =
        renderPostBodyStripped key datakey revision data signature := by
  intro dataHex sigHex datakey revision key data signature hdata hsig hdk
  constructor
  · unfold renderGetEntryResponse renderGetEntryResponseQuoted
    rw [addRevisionQuotes_chunk _ (by decide),
      addRevisionQuotes_hexvalue dataHex hdata _
        (by intro c hcp
            rw [List.head?_cons] at hcp
            injection hcp with h
            subst h
            decide),
      addRevisionQuotes_cons_ne (by decide),
      addRevisionQuotes_at (natToDecimal revision) (natToDecimal_ne_nil _)
        (natToDecimal_all_digits _) ',' (by decide) _]
  · unfold renderPostBody renderPostBodyStripped
    rw [stripRevisionQuotes_chunk _ (by decide),
      stripRevisionQuotes_skip (renderNumList key) (renderNumList_no_quote key) _,
      stripRevisionQuotes_chunk _ (by decide),
      stripRevisionQuotes_hexvalue datakey hdk _
        (by intro c hcp
            rw [List.head?_cons] at hcp
            injection hcp with h
            subst h
            decide),
      stripRevisionQuotes_cons_ne (by decide),
      stripRevisionQuotes_at (natToDecimal revision) (natToDecimal_ne_nil _)
        (natToDecimal_all_digits _) _]

/-- Witness for C8: a concrete response and POST body with a revision beyond
the float-exact range. -/
theorem C8_revision_quote_transforms_witness :
    addRevisionQuotes
        (renderGetEntryResponse ['0', '1', 'a', 'f'] 18446744073709551615 ['a', 'b']) =
      renderGetEntryResponseQuoted ['0', '1', 'a', 'f'] 18446744073709551615 ['a', 'b'] ∧
    stripRevisionQuotes
        (renderPostBody [1, 255] ['c', '0', 'f', 'e'] 18446744073709551615 [0, 7] [9]) =
      renderPostBodyStripped [1, 255] ['c', '0', 'f', 'e'] 18446744073709551615 [0, 7] [9] :=
  C8_revision_quote_transforms ['0', '1', 'a', 'f'] ['a', 'b'] ['c', '0', 'f', 'e']
    18446744073709551615 [1, 255] [0, 7] [9]
    (by decide) (by decide) (by decide)

/-- Witness for C10: a 71-byte payload is rejected with no remote calls; a
70-byte payload passes the length check. -/
theorem C10_set_entry_data_length_witness :
    setEntryData "path" (List.replicate 71 0) ⟨none, none⟩ =
      (Except.error
        "Expected parameter data to be 'Uint8Array' of length <= 70, was length 71", []) ∧
    (setEntryData "path" (List.replicate 70 0) ⟨none, none⟩).2 ≠ [] :=
  ⟨((C10_set_entry_data_length "path" (List.replicate 71 0) ⟨none, none⟩).1
      (by decide)).trans (by rfl),
   ((C10_set_entry_data_length "path" (List.replicate 70 0) ⟨none, none⟩).2
      (by decide)).1⟩

end Skynet
